import Mathlib

/-!
# Verification of the Rettiwt-API extraction pipeline

A shallow embedding of `src/services/FetcherService.ts` (and the legacy
`TweetService` bundled with it): the JSON data model, the tree-walking
subtree selection, the `extractData` dispatch, the HTTP/API error-handling
middleware and the request/post/fetch pipeline, together with theorems
checking the natural-language specification against this code.
-/

/-- A JavaScript/JSON value.  `undefined` stands for JavaScript `undefined`,
which arises from accessing a missing property; it never occurs in parsed
response bodies but can occur in intermediate values of the pipeline. -/
inductive JSON where
  | null : JSON
  | undefined : JSON
  | bool : Bool → JSON
  | num : Int → JSON
  | str : String → JSON
  | arr : List JSON → JSON
  | obj : List (String × JSON) → JSON
deriving Repr

/-- Whether a JSON node is an object whose field `key` is the string `value`
(the JavaScript strict-equality test `data[key] === value` used by the
filter of the extraction pipeline). -/
def JSON.isMatch (key value : String) : JSON → Bool
  | .obj fs =>
    match fs.lookup key with
    | some (.str s) => s == value
    | _ => false
  | _ => false

mutual

/-- Modelled from the spec: the helper `findByFilter` of
`src/helper/JsonUtils.ts` is imported by `FetcherService` but its source is
not part of this repository snapshot.  The spec describes it as: "given an
arbitrarily-shaped JSON tree returned by a timeline/GraphQL endpoint, walk
it, find nodes matching a type discriminator".  We model it as the preorder
walk of the JSON tree collecting every object node whose field `key` equals
the string `value`. -/
def findByFilter (key value : String) : JSON → List JSON
  | .obj fs =>
    (if JSON.isMatch key value (.obj fs) then [JSON.obj fs] else []) ++
      findInFields key value fs
  | .arr xs => findInList key value xs
  | _ => []

/-- The walk of `findByFilter` over the elements of a JSON array. -/
def findInList (key value : String) : List JSON → List JSON
  | [] => []
  | x :: xs => findByFilter key value x ++ findInList key value xs

/-- The walk of `findByFilter` over the fields of a JSON object. -/
def findInFields (key value : String) : List (String × JSON) → List JSON
  | [] => []
  | (_, v) :: fs => findByFilter key value v ++ findInFields key value fs

end

/-- `SubJson x t`: `x` is a node of the JSON tree `t` (the tree itself, an
element of an array, or the value of an object field, recursively). -/
inductive SubJson : JSON → JSON → Prop where
  | refl (t : JSON) : SubJson t t
  | arr {x t : JSON} {xs : List JSON} : t ∈ xs → SubJson x t → SubJson x (.arr xs)
  | obj {x t : JSON} {k : String} {fs : List (String × JSON)} :
      (k, t) ∈ fs → SubJson x t → SubJson x (.obj fs)

theorem subJson_arr_iff {x : JSON} {xs : List JSON} :
    SubJson x (.arr xs) ↔ x = .arr xs ∨ ∃ t ∈ xs, SubJson x t := by
  constructor
  · intro h
    cases h with
    | refl => exact Or.inl rfl
    | arr ht hsub => exact Or.inr ⟨_, ht, hsub⟩
  · rintro (rfl | ⟨t, ht, hsub⟩)
    · exact SubJson.refl _
    · exact SubJson.arr ht hsub

theorem subJson_obj_iff {x : JSON} {fs : List (String × JSON)} :
    SubJson x (.obj fs) ↔ x = .obj fs ∨ ∃ k t, (k, t) ∈ fs ∧ SubJson x t := by
  constructor
  · intro h
    cases h with
    | refl => exact Or.inl rfl
    | obj ht hsub => exact Or.inr ⟨_, _, ht, hsub⟩
  · rintro (rfl | ⟨k, t, ht, hsub⟩)
    · exact SubJson.refl _
    · exact SubJson.obj ht hsub

theorem subJson_null_iff {x : JSON} : SubJson x .null ↔ x = .null := by
  constructor
  · intro h; cases h; rfl
  · rintro rfl; exact SubJson.refl _

theorem subJson_undef_iff {x : JSON} : SubJson x .undefined ↔ x = .undefined := by
  constructor
  · intro h; cases h; rfl
  · rintro rfl; exact SubJson.refl _

theorem subJson_bool_iff {x : JSON} {b : Bool} : SubJson x (.bool b) ↔ x = .bool b := by
  constructor
  · intro h; cases h; rfl
  · rintro rfl; exact SubJson.refl _

theorem subJson_num_iff {x : JSON} {n : Int} : SubJson x (.num n) ↔ x = .num n := by
  constructor
  · intro h; cases h; rfl
  · rintro rfl; exact SubJson.refl _

theorem subJson_str_iff {x : JSON} {s : String} : SubJson x (.str s) ↔ x = .str s := by
  constructor
  · intro h; cases h; rfl
  · rintro rfl; exact SubJson.refl _

mutual

/-- Soundness and completeness of the walk: the nodes collected by
`findByFilter` are exactly the nodes of the tree matching the filter. -/
theorem mem_findByFilter (key value : String) (t x : JSON) :
    x ∈ findByFilter key value t ↔ SubJson x t ∧ JSON.isMatch key value x = true := by
  match t with
  | .obj fs =>
    rw [findByFilter]
    rw [List.mem_append]
    rw [mem_findInFields key value fs x]
    constructor
    · rintro (hx | ⟨k, v, hkv, hsub, hm⟩)
      · by_cases hm : JSON.isMatch key value (.obj fs) = true
        · rw [if_pos hm, List.mem_singleton] at hx
          exact ⟨hx ▸ SubJson.refl _, hx ▸ hm⟩
        · rw [if_neg hm] at hx
          exact absurd hx (List.not_mem_nil x)
      · exact ⟨SubJson.obj hkv hsub, hm⟩
    · rintro ⟨hsub, hm⟩
      rcases subJson_obj_iff.mp hsub with rfl | ⟨k, v, hkv, hsub'⟩
      · left; rw [if_pos hm]; exact List.mem_singleton.mpr rfl
      · right; exact ⟨k, v, hkv, hsub', hm⟩
  | .arr xs =>
    rw [findByFilter]
    rw [mem_findInList key value xs x]
    constructor
    · rintro ⟨t, ht, hsub, hm⟩
      exact ⟨SubJson.arr ht hsub, hm⟩
    · rintro ⟨hsub, hm⟩
      rcases subJson_arr_iff.mp hsub with rfl | ⟨t, ht, hsub'⟩
      · simp [JSON.isMatch] at hm
      · exact ⟨t, ht, hsub', hm⟩
  | .null =>
    simp only [findByFilter, List.not_mem_nil, false_iff, not_and]
    intro hsub
    rw [subJson_null_iff.mp hsub]
    simp [JSON.isMatch]
  | .undefined =>
    simp only [findByFilter, List.not_mem_nil, false_iff, not_and]
    intro hsub
    rw [subJson_undef_iff.mp hsub]
    simp [JSON.isMatch]
  | .bool b =>
    simp only [findByFilter, List.not_mem_nil, false_iff, not_and]
    intro hsub
    rw [subJson_bool_iff.mp hsub]
    simp [JSON.isMatch]
  | .num n =>
    simp only [findByFilter, List.not_mem_nil, false_iff, not_and]
    intro hsub
    rw [subJson_num_iff.mp hsub]
    simp [JSON.isMatch]
  | .str s =>
    simp only [findByFilter, List.not_mem_nil, false_iff, not_and]
    intro hsub
    rw [subJson_str_iff.mp hsub]
    simp [JSON.isMatch]

theorem mem_findInList (key value : String) (xs : List JSON) (x : JSON) :
    x ∈ findInList key value xs ↔
      ∃ t ∈ xs, SubJson x t ∧ JSON.isMatch key value x = true := by
  match xs with
  | [] =>
    rw [findInList]
    simp
  | y :: ys =>
    rw [findInList]
    rw [List.mem_append]
    rw [mem_findByFilter key value y x]
    rw [mem_findInList key value ys x]
    constructor
    · rintro (⟨hsub, hm⟩ | ⟨t, ht, hsub, hm⟩)
      · exact ⟨y, List.mem_cons_self _ _, hsub, hm⟩
      · exact ⟨t, List.mem_cons_of_mem _ ht, hsub, hm⟩
    · rintro ⟨t, ht, hsub, hm⟩
      rcases List.mem_cons.mp ht with rfl | ht'
      · exact Or.inl ⟨hsub, hm⟩
      · exact Or.inr ⟨t, ht', hsub, hm⟩

theorem mem_findInFields (key value : String) (fs : List (String × JSON)) (x : JSON) :
    x ∈ findInFields key value fs ↔
      ∃ k v, (k, v) ∈ fs ∧ SubJson x v ∧ JSON.isMatch key value x = true := by
  match fs with
  | [] =>
    rw [findInFields]
    simp
  | (k₀, v₀) :: gs =>
    rw [findInFields]
    rw [List.mem_append]
    rw [mem_findByFilter key value v₀ x]
    rw [mem_findInFields key value gs x]
    constructor
    · rintro (⟨hsub, hm⟩ | ⟨k, v, hkv, hsub, hm⟩)
      · exact ⟨k₀, v₀, List.mem_cons_self _ _, hsub, hm⟩
      · exact ⟨k, v, List.mem_cons_of_mem _ hkv, hsub, hm⟩
    · rintro ⟨k, v, hkv, hsub, hm⟩
      rcases List.mem_cons.mp hkv with heq | hkv'
      · obtain ⟨rfl, rfl⟩ := Prod.mk.injEq .. ▸ heq
        exact Or.inl ⟨hsub, hm⟩
      · exact Or.inr ⟨k, v, hkv', hsub, hm⟩

end

/-- The resource types of `rettiwt-core` referenced by `FetcherService`:
the ten types handled by the extraction branches of `extractData`, plus
`CREATE_TWEET`, which `FetcherService.replyTweet` uses to build a URL and
which reaches no extraction branch. -/
inductive EResourceType where
  | TWEET_DETAILS
  | USER_DETAILS
  | USER_DETAILS_BY_ID
  | TWEET_SEARCH
  | USER_LIKES
  | LIST_TWEETS
  | USER_TWEETS
  | TWEET_FAVORITERS
  | TWEET_RETWEETERS
  | USER_FOLLOWERS
  | USER_FOLLOWING
  | CREATE_TWEET
deriving DecidableEq, Repr

/-- JavaScript property access `x[k]`: reading a property of `null` or
`undefined` throws a `TypeError`; reading a missing property of an object,
or any property of a primitive or an array, yields `undefined`. -/
def jsGet (x : JSON) (k : String) : Except String JSON :=
  match x with
  | .null => .error "TypeError"
  | .undefined => .error "TypeError"
  | .obj fs => .ok ((fs.lookup k).getD .undefined)
  | _ => .ok .undefined

/-- The projection `(item) => item.tweet_results.result` applied to each
`TimelineTweet` node by `extractData`. -/
def tweetResultOf (item : JSON) : Except String JSON := do
  let r ← jsGet item "tweet_results"
  jsGet r "result"

/-- The projection `(item) => item.user_results.result` applied to each
`TimelineUser` node by `extractData`. -/
def userResultOf (item : JSON) : Except String JSON := do
  let r ← jsGet item "user_results"
  jsGet r "result"

/-- JavaScript optional chaining `x?.value`: `undefined` when `x` is
`null`/`undefined`, otherwise the (never-throwing) property access. -/
def optChainValue : JSON → JSON
  | .null => .undefined
  | .undefined => .undefined
  | .obj fs => (fs.lookup "value").getD .undefined
  | _ => .undefined

/-- The cursor extraction of `extractData`:
`findByFilter(data, 'cursorType', 'Bottom')[0]?.value`. -/
def bottomCursor (data : JSON) : JSON :=
  match (findByFilter "cursorType" "Bottom" data).head? with
  | none => .undefined
  | some x => optChainValue x

/-- The uniform cursored-list shape produced by the extraction pipeline
(`src/models/CursoredData.ts`): the list of raw entities together with the
pagination cursor (`undefined` when the response carries no bottom cursor). -/
structure CursoredData where
  list : List JSON
  next : JSON
deriving Repr

/-- The `required` list of `FetcherService.extractData` (lines 160-184):
initialized to `[]` and set by the if/else-if chain on the resource type.
The timeline branches project each collected node with plain property
access, which can throw a `TypeError`. -/
def extractRequired (data : JSON) : EResourceType → Except String (List JSON)
  | .TWEET_DETAILS => .ok (findByFilter "__typename" "Tweet" data)
  | .USER_DETAILS | .USER_DETAILS_BY_ID => .ok (findByFilter "__typename" "User" data)
  | .TWEET_SEARCH | .USER_LIKES | .LIST_TWEETS | .USER_TWEETS =>
    (findByFilter "__typename" "TimelineTweet" data).mapM tweetResultOf
  | .TWEET_FAVORITERS | .TWEET_RETWEETERS | .USER_FOLLOWERS | .USER_FOLLOWING =>
    (findByFilter "__typename" "TimelineUser" data).mapM userResultOf
  | _ => .ok []

/-- `FetcherService.extractData` (lines 153-187): dispatch on the resource
type to a filter over the JSON tree, optionally project each collected
node, and pair the result with the bottom cursor. -/
def extractData (data : JSON) (type : EResourceType) : Except String CursoredData :=
  (extractRequired data type).map
    (fun required => { list := required, next := bottomCursor data })

/-- One entry of the `errors` array of a platform response body; only its
`code` is consulted by the error middleware. -/
structure ApiErrorEntry where
  code : Nat
deriving Repr, DecidableEq

/-- The parsed response body `IResponse<unknown>`: the optional platform
`errors` array (absent, empty, or non-empty) and the payload tree that the
extraction pipeline walks. -/
structure IResponse where
  errors : Option (List ApiErrorEntry)
  payload : JSON
deriving Repr

/-- An HTTP response as seen by the middleware: status code and body. -/
structure AxiosResponse where
  status : Nat
  data : IResponse
deriving Repr

/-- Modelled from the spec: the enum `EHttpStatus` of `src/enums/HTTP.ts`
("status-code-to-message mapping") is not part of this repository
snapshot; we model it as a finite table from HTTP status codes to message
strings, with representative entries. -/
def EHttpStatus : List (Nat × String) :=
  [(400, "BAD_REQUEST"), (401, "UNAUTHORIZED"), (403, "FORBIDDEN"),
   (404, "NOT_FOUND"), (429, "TOO_MANY_REQUESTS"),
   (500, "INTERNAL_SERVER_ERROR"), (503, "SERVICE_UNAVAILABLE")]

/-- Modelled from the spec: the enum `EErrorCodes` of `rettiwt-core`
(platform error codes) is not part of this repository snapshot; we model
it as a finite table from enum keys to code strings. -/
def EErrorCodes : List (String × String) :=
  [("RESOURCE_NOT_FOUND", "34"), ("RATE_LIMIT_EXCEEDED", "88"),
   ("COULD_NOT_AUTHENTICATE", "32")]

/-- Modelled from the spec: the enum `EApiErrors` of
`src/enums/ApiErrors.ts` (platform error messages) is not part of this
repository snapshot; we model it as a finite table from enum keys to
message strings. -/
def EApiErrors : List (String × String) :=
  [("RESOURCE_NOT_FOUND", "Requested resource not found"),
   ("RATE_LIMIT_EXCEEDED", "Rate limit exceeded"),
   ("COULD_NOT_AUTHENTICATE", "Could not authenticate")]

/-- Modelled from the spec: the helper `findKeyByValue` of
`src/helper/JsonUtils.ts` is imported by `FetcherService` but its source
is not part of this repository snapshot; following its use ("map
HTTP/platform error codes to messages"), it returns the first key of the
table whose value equals the given string, if any. -/
def findKeyByValue (table : List (String × String)) (value : String) : Option String :=
  (table.find? (fun p => p.2 == value)).map (fun p => p.1)

/-- The message computed by `handleApiError` for a platform error code:
`EApiErrors[findKeyByValue(EErrorCodes, code)]`, `none` when the code is
unmapped (the JavaScript value is then `undefined`). -/
def apiMessage (codes msgs : List (String × String)) (code : Nat) : Option String :=
  (findKeyByValue codes (toString code)).bind (fun k => msgs.lookup k)

/-- `FetcherService.handleHttpError` (lines 83-92): throw the mapped
message when the status is not 200 and lies in the status table, else
return the response unchanged.  Thrown errors carry an `Option String`
message, `none` standing for a JavaScript `undefined` message. -/
def handleHttpError (statusTable : List (Nat × String)) (res : AxiosResponse) :
    Except (Option String) AxiosResponse :=
  if res.status != 200 && (statusTable.lookup res.status).isSome then
    .error (statusTable.lookup res.status)
  else
    .ok res

/-- `FetcherService.handleApiError` (lines 100-116): if the body carries a
non-empty `errors` array, throw the message mapped from the first entry's
code; else return the response unchanged. -/
def handleApiError (codes msgs : List (String × String)) (res : AxiosResponse) :
    Except (Option String) AxiosResponse :=
  match res.data.errors with
  | some (e :: _) => .error (apiMessage codes msgs e.code)
  | _ => .ok res

/-- The request configuration built by `fetch`/`post`:
`new Request(resourceType, args)`. -/
structure Request where
  rtype : EResourceType
  args : String
deriving Repr

/-- `FetcherService.request` (lines 124-142): send the request on the
network and pipe the raw outcome (a response, or a network-level failure)
through the two error-handling middlewares. -/
def sendRequest (statusTable : List (Nat × String)) (codes msgs : List (String × String))
    (network : Request → Except (Option String) AxiosResponse) (req : Request) :
    Except (Option String) AxiosResponse :=
  network req >>= handleHttpError statusTable >>= handleApiError codes msgs

/-- `FetcherService.fetch` (lines 197-211): build the request, run the
request pipeline, and extract the cursored data for the resource type from
the response body. -/
def fetch (statusTable : List (Nat × String)) (codes msgs : List (String × String))
    (network : Request → Except (Option String) AxiosResponse)
    (resourceType : EResourceType) (args : String) :
    Except (Option String) CursoredData := do
  let res ← sendRequest statusTable codes msgs network { rtype := resourceType, args := args }
  (extractData res.data.payload resourceType).mapError some

/-- `FetcherService.post` (lines 220-227): build the request, run the
request pipeline, and return `true`, propagating any thrown error. -/
def post (statusTable : List (Nat × String)) (codes msgs : List (String × String))
    (network : Request → Except (Option String) AxiosResponse)
    (resourceType : EResourceType) (args : String) :
    Except (Option String) Bool :=
  (sendRequest statusTable codes msgs network { rtype := resourceType, args := args }).map
    (fun _ => true)

theorem extractData_ok_iff {data : JSON} {type : EResourceType} {cd : CursoredData} :
    extractData data type = .ok cd ↔
      extractRequired data type = .ok cd.list ∧ cd.next = bottomCursor data := by
  obtain ⟨l, c⟩ := cd
  cases h : extractRequired data type with
  | ok l' => simp [extractData, h, Except.map, CursoredData.mk.injEq, and_comm, eq_comm]
  | error e => simp [extractData, h, Except.map]

theorem extractData_isOk {data : JSON} {type : EResourceType} :
    (extractData data type).isOk = (extractRequired data type).isOk := by
  cases h : extractRequired data type <;>
    simp [extractData, h, Except.map, Except.isOk, Except.toBool]

theorem mapM_ok_forall₂ {α β ε : Type} {f : α → Except ε β} :
    ∀ {l : List α} {ys : List β}, l.mapM f = .ok ys →
      List.Forall₂ (fun a b => f a = .ok b) l ys := by
  intro l
  induction l with
  | nil =>
    intro ys h
    rw [List.mapM_nil] at h
    cases h
    exact List.Forall₂.nil
  | cons a as ih =>
    intro ys h
    rw [List.mapM_cons] at h
    cases hfa : f a with
    | error e =>
      rw [hfa] at h
      simp only [bind, Except.bind] at h
      exact absurd h (by simp)
    | ok b =>
      rw [hfa] at h
      simp only [bind, Except.bind] at h
      cases hrest : as.mapM f with
      | error e =>
        rw [hrest] at h
        exact absurd h (by simp)
      | ok bs =>
        rw [hrest] at h
        simp only [pure, Except.pure] at h
        injection h with h'
        subst h'
        exact List.Forall₂.cons hfa (ih hrest)

theorem mapM_isOk_of_forall {α β ε : Type} {f : α → Except ε β} :
    ∀ {l : List α}, (∀ a ∈ l, (f a).isOk = true) → (l.mapM f).isOk = true := by
  intro l
  induction l with
  | nil => intro _; rw [List.mapM_nil]; rfl
  | cons a as ih =>
    intro h
    rw [List.mapM_cons]
    cases hfa : f a with
    | error e =>
      have hthis := h a (List.mem_cons_self _ _)
      rw [hfa] at hthis
      simp [Except.isOk, Except.toBool] at hthis
    | ok b =>
      have hrest := ih (fun x hx => h x (List.mem_cons_of_mem _ hx))
      cases hr : as.mapM f with
      | error e =>
        rw [hr] at hrest
        simp [Except.isOk, Except.toBool] at hrest
      | ok bs =>
        simp [hfa, hr, bind, Except.bind, pure, Except.pure, Except.isOk, Except.toBool]

theorem forall₂_and_left {α β : Type} {P : α → Prop} {Q : α → β → Prop} :
    ∀ {l : List α} {ys : List β}, (∀ a ∈ l, P a) → List.Forall₂ Q l ys →
      List.Forall₂ (fun a b => P a ∧ Q a b) l ys := by
  intro l ys hp h
  induction h with
  | nil => exact List.Forall₂.nil
  | cons hq _ ih =>
    exact List.Forall₂.cons ⟨hp _ (List.mem_cons_self _ _), hq⟩
      (ih (fun a ha => hp a (List.mem_cons_of_mem _ ha)))

mutual

theorem findByFilter_length_aux (key value : String) (t : JSON) :
    (findByFilter key value t).length ≤ sizeOf t := by
  match t with
  | .obj fs =>
    rw [findByFilter, List.length_append]
    have hf := findInFields_length_aux key value fs
    have hs : sizeOf (JSON.obj fs) = 1 + sizeOf fs := by simp
    by_cases hm : JSON.isMatch key value (.obj fs) = true
    · rw [if_pos hm]; simp only [List.length_singleton]; omega
    · rw [if_neg hm]; simp only [List.length_nil]; omega
  | .arr xs =>
    rw [findByFilter]
    have hf := findInList_length_aux key value xs
    have hs : sizeOf (JSON.arr xs) = 1 + sizeOf xs := by simp
    omega
  | .null => simp only [findByFilter, List.length_nil]; exact Nat.zero_le _
  | .undefined => simp only [findByFilter, List.length_nil]; exact Nat.zero_le _
  | .bool b => simp only [findByFilter, List.length_nil]; exact Nat.zero_le _
  | .num n => simp only [findByFilter, List.length_nil]; exact Nat.zero_le _
  | .str s => simp only [findByFilter, List.length_nil]; exact Nat.zero_le _

theorem findInList_length_aux (key value : String) (xs : List JSON) :
    (findInList key value xs).length ≤ sizeOf xs := by
  match xs with
  | [] => rw [findInList]; exact Nat.zero_le _
  | x :: ys =>
    rw [findInList, List.length_append]
    have h1 := findByFilter_length_aux key value x
    have h2 := findInList_length_aux key value ys
    have hs : sizeOf (x :: ys) = 1 + sizeOf x + sizeOf ys := by simp
    omega

theorem findInFields_length_aux (key value : String) (fs : List (String × JSON)) :
    (findInFields key value fs).length ≤ sizeOf fs := by
  match fs with
  | [] => rw [findInFields]; exact Nat.zero_le _
  | (k, v) :: gs =>
    rw [findInFields, List.length_append]
    have h1 := findByFilter_length_aux key value v
    have h2 := findInFields_length_aux key value gs
    have hs : sizeOf ((k, v) :: gs) = 1 + (1 + sizeOf k + sizeOf v) + sizeOf gs := by simp
    omega

end

/-- A chain of `d` nested single-field objects around a JSON tree,
used to probe how deep the subtree selection looks. -/
def nestObj : Nat → JSON → JSON
  | 0, t => t
  | d + 1, t => .obj [("a", nestObj d t)]

/-- The depth-`d` approximation of a JSON tree: everything below depth `d`
is replaced by `null`.  Two trees with the same depth-`d` approximation
agree on all nodes down to depth `d`. -/
def toDepth : Nat → JSON → JSON
  | 0, _ => .null
  | d + 1, .obj fs => .obj (fs.map (fun kv => (kv.1, toDepth d kv.2)))
  | d + 1, .arr xs => .arr (xs.map (toDepth d))
  | _ + 1, t => t

/-- The formalization of "the subtree selection is non-recursive": some
fixed depth bound `d` exists such that the selection's output is already
determined by the depth-`d` approximation of the input tree (as any
non-recursive, direct access pattern inspects only boundedly deep
nodes). -/
def BoundedDepthSelection : Prop :=
  ∃ d : Nat, ∀ t₁ t₂ : JSON,
    toDepth d t₁ = toDepth d t₂ →
    findByFilter "__typename" "Tweet" t₁ = findByFilter "__typename" "Tweet" t₂

/-- The node `{'__typename': 'Tweet'}`. -/
def tweetNode : JSON := .obj [("__typename", .str "Tweet")]

theorem toDepth_nestObj (x y : JSON) :
    ∀ d : Nat, toDepth d (nestObj d x) = toDepth d (nestObj d y) := by
  intro d
  induction d with
  | zero => rfl
  | succ d ih =>
    show toDepth (d + 1) (.obj [("a", nestObj d x)]) =
      toDepth (d + 1) (.obj [("a", nestObj d y)])
    rw [toDepth, toDepth]
    simp only [List.map_cons, List.map_nil]
    rw [ih]

theorem findByFilter_nestObj_tweet :
    ∀ d : Nat, findByFilter "__typename" "Tweet" (nestObj d tweetNode) = [tweetNode] := by
  intro d
  induction d with
  | zero => rfl
  | succ d ih =>
    show findByFilter "__typename" "Tweet" (.obj [("a", nestObj d tweetNode)]) = [tweetNode]
    rw [findByFilter]
    have hm : JSON.isMatch "__typename" "Tweet" (.obj [("a", nestObj d tweetNode)]) = false := by
      simp [JSON.isMatch, List.lookup]
    rw [hm]
    simp only [Bool.false_eq_true, if_false, List.nil_append]
    rw [findInFields, findInFields, ih, List.append_nil]

theorem findByFilter_nestObj_empty :
    ∀ d : Nat, findByFilter "__typename" "Tweet" (nestObj d (.obj [])) = [] := by
  intro d
  induction d with
  | zero => rfl
  | succ d ih =>
    show findByFilter "__typename" "Tweet" (.obj [("a", nestObj d (.obj []))]) = []
    rw [findByFilter]
    have hm : JSON.isMatch "__typename" "Tweet" (.obj [("a", nestObj d (.obj []))]) = false := by
      simp [JSON.isMatch, List.lookup]
    rw [hm]
    simp only [Bool.false_eq_true, if_false, List.nil_append]
    rw [findInFields, findInFields, ih, List.append_nil]

/-- The observable effects of the legacy `TweetService.getTweetById`
besides its return value: the network fetch of a URL and the write of the
extracted data to the cache. -/
inductive ServiceEffect where
  | fetchData (url : String)
  | cacheData
deriving Repr, DecidableEq

/-- The shape returned by the legacy extractors (`helper/Extractors`): the
list of raw entities that the service then caches and deserializes. -/
structure RawExtract where
  required : List JSON
deriving Repr

/-- `TweetService.getTweetById` (legacy `TweetService`, lines 427-450),
with its external collaborators passed as functions: `readData` is the
cache lookup, `fetchJson` the network request plus `res.json()`,
`extractTweet` the extractor, `toTweet` the deserializer (applied to
`data.required[0]`, which is `undefined` — here `none` — when the list is
empty), and `tweetDetailsUrl` the URL template.  The second component
records the effects performed: none on a cache hit; the fetch and the
cache write on a miss. -/
def getTweetById {Tweet : Type}
    (readData : String → Option Tweet)
    (fetchJson : String → JSON)
    (extractTweet : JSON → String → RawExtract)
    (toTweet : Option JSON → Tweet)
    (tweetDetailsUrl : String → String)
    (tweetId : String) : Tweet × List ServiceEffect :=
  match readData tweetId with
  | some cachedData => (cachedData, [])
  | none =>
    let res := fetchJson (tweetDetailsUrl tweetId)
    let data := extractTweet res tweetId
    (toTweet data.required.head?,
      [.fetchData (tweetDetailsUrl tweetId), .cacheData])

/-- C1: for the detail resource types, `extractData` returns a
cursored-list whose entity list is exactly the nodes of the input tree
whose `__typename` field equals `Tweet` (for `TWEET_DETAILS`) or `User`
(for `USER_DETAILS` and `USER_DETAILS_BY_ID`), flattened alongside the
pagination cursor into the `CursoredData` shape. -/
theorem extractData_details_exact (data : JSON) :
    (∃ cd, extractData data .TWEET_DETAILS = .ok cd ∧ cd.next = bottomCursor data ∧
      ∀ x, x ∈ cd.list ↔ SubJson x data ∧ JSON.isMatch "__typename" "Tweet" x = true) ∧
    (∃ cd, extractData data .USER_DETAILS = .ok cd ∧ cd.next = bottomCursor data ∧
      ∀ x, x ∈ cd.list ↔ SubJson x data ∧ JSON.isMatch "__typename" "User" x = true) ∧
    (∃ cd, extractData data .USER_DETAILS_BY_ID = .ok cd ∧ cd.next = bottomCursor data ∧
      ∀ x, x ∈ cd.list ↔ SubJson x data ∧ JSON.isMatch "__typename" "User" x = true) := by
  refine ⟨⟨_, rfl, rfl, ?_⟩, ⟨_, rfl, rfl, ?_⟩, ⟨_, rfl, rfl, ?_⟩⟩ <;>
    exact fun x => mem_findByFilter _ _ data x

/-- C5: for every input tree and resource type on which `extractData`
succeeds, the returned cursor is the `value` field of the first node of
the tree (in walk order) whose `cursorType` field equals `Bottom`, and is
`undefined` when no such node exists. -/
theorem extractData_cursor_spec (data : JSON) (type : EResourceType) (cd : CursoredData)
    (h : extractData data type = .ok cd) :
    cd.next = bottomCursor data ∧
    (findByFilter "cursorType" "Bottom" data = [] → cd.next = .undefined) ∧
    (∀ node rest, findByFilter "cursorType" "Bottom" data = node :: rest →
      SubJson node data ∧ JSON.isMatch "cursorType" "Bottom" node = true ∧
      cd.next = optChainValue node) ∧
    ((¬ ∃ x, SubJson x data ∧ JSON.isMatch "cursorType" "Bottom" x = true) →
      cd.next = .undefined) := by
  have hnext : cd.next = bottomCursor data := (extractData_ok_iff.mp h).2
  refine ⟨hnext, ?_, ?_, ?_⟩
  · intro hnil
    rw [hnext]
    simp [bottomCursor, hnil]
  · intro node rest hcons
    have hmem : node ∈ findByFilter "cursorType" "Bottom" data := by
      rw [hcons]; exact List.mem_cons_self _ _
    obtain ⟨hsub, hm⟩ := (mem_findByFilter _ _ data node).mp hmem
    refine ⟨hsub, hm, ?_⟩
    rw [hnext]
    simp [bottomCursor, hcons]
  · intro hno
    have hnil : findByFilter "cursorType" "Bottom" data = [] := by
      cases hfb : findByFilter "cursorType" "Bottom" data with
      | nil => rfl
      | cons node rest =>
        exfalso
        apply hno
        have hmem : node ∈ findByFilter "cursorType" "Bottom" data := by
          rw [hfb]; exact List.mem_cons_self _ _
        exact ⟨node, (mem_findByFilter _ _ data node).mp hmem⟩
    rw [hnext]
    simp [bottomCursor, hnil]

/-- A response body with a single bottom cursor node and no entities. -/
def cursorOnlyData : JSON :=
  .obj [("cursor", .obj [("cursorType", .str "Bottom"), ("value", .str "CUR")])]

theorem extractData_cursor_spec_witness :
    ({ list := [], next := JSON.str "CUR" } : CursoredData).next = bottomCursor cursorOnlyData :=
  (extractData_cursor_spec cursorOnlyData .TWEET_DETAILS
    { list := [], next := JSON.str "CUR" } rfl).1

/-- The ten resource types handled by the extraction branches of
`extractData`. -/
def handledTypes : List EResourceType :=
  [.TWEET_DETAILS, .USER_DETAILS, .USER_DETAILS_BY_ID,
   .TWEET_SEARCH, .USER_LIKES, .LIST_TWEETS, .USER_TWEETS,
   .TWEET_FAVORITERS, .TWEET_RETWEETERS, .USER_FOLLOWERS, .USER_FOLLOWING]

/-- C8: the resource type alone selects the extraction rule — resource
types of the same branch group produce identical results on every input
tree — and a resource type outside the ten listed branches yields a
`CursoredData` with an empty entity list, carrying only the cursor. -/
theorem extractData_rule_by_type (data : JSON) (type : EResourceType)
    (h : type ∉ handledTypes) :
    extractData data type = .ok { list := [], next := bottomCursor data } ∧
    extractData data .USER_DETAILS = extractData data .USER_DETAILS_BY_ID ∧
    extractData data .TWEET_SEARCH = extractData data .USER_LIKES ∧
    extractData data .USER_LIKES = extractData data .LIST_TWEETS ∧
    extractData data .LIST_TWEETS = extractData data .USER_TWEETS ∧
    extractData data .TWEET_FAVORITERS = extractData data .TWEET_RETWEETERS ∧
    extractData data .TWEET_RETWEETERS = extractData data .USER_FOLLOWERS ∧
    extractData data .USER_FOLLOWERS = extractData data .USER_FOLLOWING := by
  refine ⟨?_, rfl, rfl, rfl, rfl, rfl, rfl, rfl⟩
  cases type <;> first | rfl | simp [handledTypes] at h

theorem extractData_rule_by_type_witness :
    extractData .null .CREATE_TWEET = .ok { list := [], next := bottomCursor .null } :=
  (extractData_rule_by_type .null .CREATE_TWEET (by decide)).1

/-- C9: `post` never returns `false` — it either returns `true` (when the
request pipeline completes without throwing) or propagates the thrown
error. -/
theorem post_never_false (statusTable : List (Nat × String))
    (codes msgs : List (String × String))
    (network : Request → Except (Option String) AxiosResponse)
    (resourceType : EResourceType) (args : String) :
    post statusTable codes msgs network resourceType args = .ok true ∨
    ∃ e, post statusTable codes msgs network resourceType args = .error e := by
  cases h : sendRequest statusTable codes msgs network { rtype := resourceType, args := args } with
  | ok res => left; simp [post, h, Except.map]
  | error e => right; exact ⟨e, by simp [post, h, Except.map]⟩

/-- C10: `getTweetById` short-circuits on the cache — on a cache hit the
cached value is returned as-is with no fetch, no extraction and no
re-caching; only on a cache miss is the tweet fetched, extracted, cached
and deserialized. -/
theorem getTweetById_cache_short_circuit {Tweet : Type}
    (readData : String → Option Tweet)
    (fetchJson : String → JSON)
    (extractTweet : JSON → String → RawExtract)
    (toTweet : Option JSON → Tweet)
    (tweetDetailsUrl : String → String)
    (tweetId : String) :
    (∀ t, readData tweetId = some t →
      getTweetById readData fetchJson extractTweet toTweet tweetDetailsUrl tweetId = (t, [])) ∧
    (readData tweetId = none →
      getTweetById readData fetchJson extractTweet toTweet tweetDetailsUrl tweetId =
        (toTweet ((extractTweet (fetchJson (tweetDetailsUrl tweetId)) tweetId)).required.head?,
         [.fetchData (tweetDetailsUrl tweetId), .cacheData])) := by
  constructor
  · intro t ht
    simp [getTweetById, ht]
  · intro hmiss
    simp [getTweetById, hmiss]

theorem getTweetById_cache_short_circuit_witness :
    getTweetById (fun _ => some 7) (fun _ => JSON.null) (fun _ _ => { required := [] })
      (fun _ => 0) (fun u => u) "id" = (7, []) ∧
    getTweetById (fun _ => (none : Option Nat)) (fun _ => JSON.null) (fun _ _ => { required := [] })
      (fun _ => 0) (fun u => u) "id" = (0, [.fetchData "id", .cacheData]) :=
  ⟨(getTweetById_cache_short_circuit (fun _ => some 7) (fun _ => JSON.null)
      (fun _ _ => { required := [] }) (fun _ => 0) (fun u => u) "id").1 7 rfl,
   (getTweetById_cache_short_circuit (fun _ => (none : Option Nat)) (fun _ => JSON.null)
      (fun _ _ => { required := [] }) (fun _ => 0) (fun u => u) "id").2 rfl⟩

/-- `l` is the list obtained from the nodes of `data` whose `__typename`
equals `tyname` (in walk order), each projected through `proj`. -/
def ProjectedFrom (data : JSON) (tyname : String) (proj : JSON → Except String JSON)
    (l : List JSON) : Prop :=
  List.Forall₂
    (fun node res => SubJson node data ∧ JSON.isMatch "__typename" tyname node = true ∧
      proj node = .ok res)
    (findByFilter "__typename" tyname data) l

theorem projectedFrom_of_mapM {data : JSON} {tyname : String}
    {proj : JSON → Except String JSON} {l : List JSON}
    (h : (findByFilter "__typename" tyname data).mapM proj = .ok l) :
    ProjectedFrom data tyname proj l := by
  have h2 := mapM_ok_forall₂ h
  have h3 := forall₂_and_left
    (fun a ha => (mem_findByFilter "__typename" tyname data a).mp ha) h2
  exact h3.imp (fun a b hab => ⟨hab.1.1, hab.1.2, hab.2⟩)

/-- C2: for the timeline resource types, `extractData` collects every node
whose `__typename` equals `TimelineTweet` (for `TWEET_SEARCH`,
`USER_LIKES`, `LIST_TWEETS`, `USER_TWEETS`) and projects each to its
`tweet_results.result` field, and every node whose `__typename` equals
`TimelineUser` (for `TWEET_FAVORITERS`, `TWEET_RETWEETERS`,
`USER_FOLLOWERS`, `USER_FOLLOWING`) projected to `user_results.result`. -/
theorem extractData_timeline_spec (data : JSON) (cd : CursoredData) :
    (extractData data .TWEET_SEARCH = .ok cd →
      ProjectedFrom data "TimelineTweet" tweetResultOf cd.list) ∧
    (extractData data .USER_LIKES = .ok cd →
      ProjectedFrom data "TimelineTweet" tweetResultOf cd.list) ∧
    (extractData data .LIST_TWEETS = .ok cd →
      ProjectedFrom data "TimelineTweet" tweetResultOf cd.list) ∧
    (extractData data .USER_TWEETS = .ok cd →
      ProjectedFrom data "TimelineTweet" tweetResultOf cd.list) ∧
    (extractData data .TWEET_FAVORITERS = .ok cd →
      ProjectedFrom data "TimelineUser" userResultOf cd.list) ∧
    (extractData data .TWEET_RETWEETERS = .ok cd →
      ProjectedFrom data "TimelineUser" userResultOf cd.list) ∧
    (extractData data .USER_FOLLOWERS = .ok cd →
      ProjectedFrom data "TimelineUser" userResultOf cd.list) ∧
    (extractData data .USER_FOLLOWING = .ok cd →
      ProjectedFrom data "TimelineUser" userResultOf cd.list) := by
  refine ⟨?_, ?_, ?_, ?_, ?_, ?_, ?_, ?_⟩ <;>
    exact fun h => projectedFrom_of_mapM (extractData_ok_iff.mp h).1

/-- A response body with one `TimelineTweet` node wrapping a result. -/
def timelineTweetData : JSON :=
  .obj [("entry", .obj [("__typename", .str "TimelineTweet"),
                        ("tweet_results", .obj [("result", .str "T1")])])]

theorem extractData_timeline_spec_witness :
    ProjectedFrom timelineTweetData "TimelineTweet" tweetResultOf [JSON.str "T1"] :=
  (extractData_timeline_spec timelineTweetData
    { list := [JSON.str "T1"], next := .undefined }).1 rfl

/-- A response body with a `TimelineTweet` node that lacks the
`tweet_results` wrapper. -/
def missingWrapperData : JSON :=
  .obj [("entry", .obj [("__typename", .str "TimelineTweet")])]

/-- C6 counterexample: `extractData` is not total — on an input containing
a `TimelineTweet` node without the `tweet_results` wrapper, the projection
reads `result` off `undefined` and throws a `TypeError` instead of
returning a `CursoredData`. -/
theorem extractData_throws_on_missing_wrapper :
    extractData missingWrapperData .TWEET_SEARCH = .error "TypeError" := rfl

/-- C6 amended: `extractData` never throws for the detail resource types
or for unhandled resource types (in particular a missing discriminator
node or a missing `Bottom` cursor node never makes it throw), and for the
timeline resource types it never throws provided every matching node
projects successfully (its `tweet_results`/`user_results` wrapper reaches
a value); only a matching timeline node lacking that wrapper makes it
throw. -/
theorem extractData_total_cases (data : JSON) :
    (extractData data .TWEET_DETAILS).isOk = true ∧
    (extractData data .USER_DETAILS).isOk = true ∧
    (extractData data .USER_DETAILS_BY_ID).isOk = true ∧
    (extractData data .CREATE_TWEET).isOk = true ∧
    ((∀ x ∈ findByFilter "__typename" "TimelineTweet" data, (tweetResultOf x).isOk = true) →
      (extractData data .TWEET_SEARCH).isOk = true ∧
      (extractData data .USER_LIKES).isOk = true ∧
      (extractData data .LIST_TWEETS).isOk = true ∧
      (extractData data .USER_TWEETS).isOk = true) ∧
    ((∀ x ∈ findByFilter "__typename" "TimelineUser" data, (userResultOf x).isOk = true) →
      (extractData data .TWEET_FAVORITERS).isOk = true ∧
      (extractData data .TWEET_RETWEETERS).isOk = true ∧
      (extractData data .USER_FOLLOWERS).isOk = true ∧
      (extractData data .USER_FOLLOWING).isOk = true) := by
  refine ⟨?_, ?_, ?_, ?_, fun h => ⟨?_, ?_, ?_, ?_⟩, fun h => ⟨?_, ?_, ?_, ?_⟩⟩ <;>
    rw [extractData_isOk] <;>
    first
      | rfl
      | exact mapM_isOk_of_forall h

theorem extractData_total_cases_witness :
    (extractData timelineTweetData .TWEET_SEARCH).isOk = true :=
  ((extractData_total_cases timelineTweetData).2.2.2.2.1
    (by
      intro x hx
      have hfb : findByFilter "__typename" "TimelineTweet" timelineTweetData =
          [.obj [("__typename", .str "TimelineTweet"),
                 ("tweet_results", .obj [("result", .str "T1")])]] := rfl
      rw [hfb] at hx
      rcases List.mem_singleton.mp hx with rfl
      rfl)).1

/-- A response whose status is a redirect code absent from the status
table. -/
def redirectResponse : AxiosResponse :=
  { status := 302, data := { errors := none, payload := .null } }

/-- C3 counterexample: a response whose status code is not 200 but does
not appear in the status-code table passes through the request pipeline
unchanged instead of making it throw. -/
theorem non200_without_mapping_no_throw :
    (redirectResponse.status == 200) = false ∧
    sendRequest EHttpStatus EErrorCodes EApiErrors (fun _ => .ok redirectResponse)
      { rtype := .TWEET_DETAILS, args := "" } = .ok redirectResponse :=
  ⟨rfl, rfl⟩

/-- C3 amended: the HTTP middleware throws the mapped message exactly when
the status is not 200 and is present in the status table; a status of 200,
or a non-200 status absent from the table, passes unchanged; a 200
response with no API errors passes the whole request pipeline unchanged. -/
theorem handleHttpError_spec (statusTable : List (Nat × String))
    (codes msgs : List (String × String)) (res : AxiosResponse) :
    (res.status = 200 → handleHttpError statusTable res = .ok res) ∧
    (∀ m, res.status ≠ 200 → statusTable.lookup res.status = some m →
      handleHttpError statusTable res = .error (some m)) ∧
    (statusTable.lookup res.status = none → handleHttpError statusTable res = .ok res) ∧
    (res.status = 200 → res.data.errors = none ∨ res.data.errors = some [] →
      ∀ (network : Request → Except (Option String) AxiosResponse) (req : Request),
        network req = .ok res → sendRequest statusTable codes msgs network req = .ok res) := by
  refine ⟨?_, ?_, ?_, ?_⟩
  · intro h200
    simp [handleHttpError, h200]
  · intro m hne hlk
    simp [handleHttpError, hlk, bne_iff_ne, hne]
  · intro hlk
    simp [handleHttpError, hlk]
  · intro h200 herr network req hnet
    have h1 : handleHttpError statusTable res = .ok res := by
      simp [handleHttpError, h200]
    have h2 : handleApiError codes msgs res = .ok res := by
      rcases herr with h | h <;> simp [handleApiError, h]
    simp [sendRequest, hnet, h1, h2, bind, Except.bind]

/-- A 200 response with no API errors. -/
def okResponse : AxiosResponse :=
  { status := 200, data := { errors := none, payload := .null } }

/-- A 429 response, whose status is in the status table. -/
def tooManyResponse : AxiosResponse :=
  { status := 429, data := { errors := none, payload := .null } }

theorem handleHttpError_spec_witness :
    handleHttpError EHttpStatus okResponse = .ok okResponse ∧
    handleHttpError EHttpStatus tooManyResponse = .error (some "TOO_MANY_REQUESTS") ∧
    handleHttpError EHttpStatus redirectResponse = .ok redirectResponse ∧
    sendRequest EHttpStatus EErrorCodes EApiErrors (fun _ => .ok okResponse)
      { rtype := .TWEET_DETAILS, args := "" } = .ok okResponse :=
  ⟨(handleHttpError_spec EHttpStatus EErrorCodes EApiErrors okResponse).1 rfl,
   (handleHttpError_spec EHttpStatus EErrorCodes EApiErrors tooManyResponse).2.1
     "TOO_MANY_REQUESTS" (by decide) rfl,
   (handleHttpError_spec EHttpStatus EErrorCodes EApiErrors redirectResponse).2.2.1 rfl,
   (handleHttpError_spec EHttpStatus EErrorCodes EApiErrors okResponse).2.2.2 rfl
     (Or.inl rfl) (fun _ => .ok okResponse) { rtype := .TWEET_DETAILS, args := "" } rfl⟩

/-- C4: the API-error middleware throws exactly when the body carries a
non-empty `errors` array; the thrown message is the one obtained by
mapping the first entry's code through the code table and the message
table, later entries being ignored; otherwise the response is returned
unchanged. -/
theorem handleApiError_spec (codes msgs : List (String × String)) (res : AxiosResponse) :
    ((∃ m, handleApiError codes msgs res = .error m) ↔
      ∃ e rest, res.data.errors = some (e :: rest)) ∧
    (∀ e rest, res.data.errors = some (e :: rest) →
      handleApiError codes msgs res = .error (apiMessage codes msgs e.code)) ∧
    (∀ (e : ApiErrorEntry) (rest₁ rest₂ : List ApiErrorEntry) (payload : JSON) (status : Nat),
      handleApiError codes msgs
        { status := status, data := { errors := some (e :: rest₁), payload := payload } } =
      handleApiError codes msgs
        { status := status, data := { errors := some (e :: rest₂), payload := payload } }) ∧
    ((res.data.errors = none ∨ res.data.errors = some []) →
      handleApiError codes msgs res = .ok res) := by
  refine ⟨?_, ?_, ?_, ?_⟩
  · constructor
    · rintro ⟨m, hm⟩
      cases herr : res.data.errors with
      | none => simp [handleApiError, herr] at hm
      | some l =>
        cases l with
        | nil => simp [handleApiError, herr] at hm
        | cons e rest => exact ⟨e, rest, rfl⟩
    · rintro ⟨e, rest, herr⟩
      exact ⟨apiMessage codes msgs e.code, by simp [handleApiError, herr]⟩
  · intro e rest herr
    simp [handleApiError, herr]
  · intro e r₁ r₂ payload status
    rfl
  · rintro (h | h) <;> simp [handleApiError, h]

/-- A 200 response carrying two platform errors. -/
def apiErrorResponse : AxiosResponse :=
  { status := 200,
    data := { errors := some [{ code := 34 }, { code := 88 }], payload := .null } }

theorem handleApiError_spec_witness :
    handleApiError EErrorCodes EApiErrors apiErrorResponse =
      .error (apiMessage EErrorCodes EApiErrors 34) ∧
    handleApiError EErrorCodes EApiErrors okResponse = .ok okResponse :=
  ⟨(handleApiError_spec EErrorCodes EApiErrors apiErrorResponse).2.1
     { code := 34 } [{ code := 88 }] rfl,
   (handleApiError_spec EErrorCodes EApiErrors okResponse).2.2.2 (Or.inl rfl)⟩

/-- The subtree selection inspects the input tree at unbounded depth: for
every depth bound `d` there are two trees with the same depth-`d`
approximation on which `findByFilter` differs.  No non-recursive, direct
access pattern can compute it, since such a pattern reads only boundedly
deep nodes. -/
def DepthUnbounded : Prop :=
  ∀ d : Nat, ∃ t₁ t₂ : JSON,
    toDepth d t₁ = toDepth d t₂ ∧
    findByFilter "__typename" "Tweet" t₁ ≠ findByFilter "__typename" "Tweet" t₂

/-- C7 counterexample: the subtree selection is not non-recursive — its
output is not determined by any fixed finite depth of the input tree
(witnessed by a matching node nested below any given depth bound). -/
theorem selection_depth_unbounded : DepthUnbounded := by
  intro d
  refine ⟨nestObj d tweetNode, nestObj d (.obj []),
    toDepth_nestObj tweetNode (.obj []) d, ?_⟩
  rw [findByFilter_nestObj_tweet d, findByFilter_nestObj_empty d]
  exact List.cons_ne_nil _ _

/-- C7 amended: the request building, error-code mapping and field mapping
are direct logic, but the subtree selection recursively walks the JSON
tree; it terminates on every finite input, with at most as many collected
nodes as the input has size. -/
theorem findByFilter_terminates (key value : String) (t : JSON) :
    (findByFilter key value t).length ≤ sizeOf t :=
  findByFilter_length_aux key value t
